import Mathlib

/- Shallow embedding of the dwl preview engine
   (src/dwl/src/simulation/PreviewLocomotion.cpp).

   Real-valued quantities are modelled over the rationals. Components of the
   repository whose sources are not under src (the cart-table model, the frame
   transformer, the terrain map, the foot spline generator, the YAML reader and
   the ReducedBodyState / PreviewParams headers) are modelled from the spec and
   threaded through the engine as explicit data, so that every theorem below
   quantifies over any behaviour of those collaborators. -/

namespace dwl

/-- A 3-vector over the rationals, standing in for an Eigen Vector3d. -/
structure Vec3 where
  x : ℚ
  y : ℚ
  z : ℚ
  deriving DecidableEq, Repr

instance : Zero Vec3 := ⟨⟨0, 0, 0⟩⟩

instance : Add Vec3 := ⟨fun a b => ⟨a.x + b.x, a.y + b.y, a.z + b.z⟩⟩

instance : Neg Vec3 := ⟨fun a => ⟨-a.x, -a.y, -a.z⟩⟩

instance : Sub Vec3 := ⟨fun a b => ⟨a.x - b.x, a.y - b.y, a.z - b.z⟩⟩

instance : HMul ℚ Vec3 Vec3 := ⟨fun q v => ⟨q * v.x, q * v.y, q * v.z⟩⟩

instance : HMul Vec3 ℚ Vec3 := ⟨fun v q => ⟨v.x * q, v.y * q, v.z * q⟩⟩

/-- Association list lookup, modelling std::map::find followed by a
dereference of the iterator. -/
def alookup {α : Type} : List (String × α) → String → Option α
  | [], _ => none
  | (k, v) :: rest, n => if k = n then some v else alookup rest n

/-- Association list erase, modelling std::map::erase by key. -/
def aerase {α : Type} : List (String × α) → String → List (String × α)
  | [], _ => []
  | (k, v) :: rest, n => if k = n then aerase rest n else (k, v) :: aerase rest n

/-- Association list insert-or-assign, modelling assignment through the
std::map subscript operator. -/
def ainsert {α : Type} : List (String × α) → String → α → List (String × α)
  | [], n, v => [(n, v)]
  | (k, w) :: rest, n, v =>
    if k = n then (n, v) :: rest else (k, w) :: ainsert rest n v

/-- The phase tag of a preview phase. -/
inductive TypeOfPhase where
  | STANCE
  | FLIGHT
  deriving DecidableEq, Repr

/-- Modelled from the spec: the PreviewPhase value of the missing
PreviewLocomotion header, holding the phase tag, the ordered list of feet that
receive a footstep shift, the set of swinging feet and the commanded planar
shift per foot. -/
structure PreviewPhase where
  type : TypeOfPhase
  feet : List String
  swing_feet : List String
  foot_shift : List (String × (ℚ × ℚ))
  deriving DecidableEq, Repr

/-- Membership test used by the engine for the swing set of a phase. -/
def PreviewPhase.isSwingFoot (p : PreviewPhase) (name : String) : Prop :=
  name ∈ p.swing_feet

instance (p : PreviewPhase) (name : String) : Decidable (p.isSwingFoot name) :=
  inferInstanceAs (Decidable (name ∈ p.swing_feet))

/-- The commanded planar shift of a foot, zero when the foot has none. -/
def PreviewPhase.getFootShift (p : PreviewPhase) (name : String) : ℚ × ℚ :=
  (alookup p.foot_shift name).getD (0, 0)

/-- Modelled from the spec: the per-phase control input PreviewParams of the
missing header, with a duration, a CoP shift, a heading acceleration and the
phase description. -/
structure PreviewParams where
  duration : ℚ
  cop_shift : Vec3
  head_acc : ℚ
  phase : PreviewPhase
  deriving DecidableEq, Repr

/-- Modelled from the spec: the ordered list of phase parameters. -/
structure PreviewControl where
  params : List PreviewParams
  deriving DecidableEq, Repr

/-- Modelled from the spec: the control parameters handed to the cart-table
model for one phase. -/
structure CartTableControlParams where
  duration : ℚ
  cop_shift : Vec3
  deriving DecidableEq, Repr

/-- Modelled from the spec: the reduced body state of the missing header, with
the time stamp, CoM state, orientation state, CoP, support region and per-foot
Cartesian state keyed by foot name. -/
structure ReducedBodyState where
  time : ℚ
  com_pos : Vec3
  com_vel : Vec3
  com_acc : Vec3
  angular_pos : Vec3
  angular_vel : Vec3
  angular_acc : Vec3
  cop : Vec3
  support_region : List (String × Vec3)
  foot_pos : List (String × Vec3)
  foot_vel : List (String × Vec3)
  foot_acc : List (String × Vec3)
  deriving DecidableEq, Repr

/-- A default-constructed reduced body state: zeros and empty maps. -/
def dfltState : ReducedBodyState :=
  ⟨0, 0, 0, 0, 0, 0, 0, 0, [], [], [], []⟩

/-- Modelled from the spec: a default-constructed phase; a STANCE phase is
identified by the presence of a cop_shift key, so the default tag is FLIGHT. -/
def dfltPhase : PreviewPhase := ⟨TypeOfPhase.FLIGHT, [], [], []⟩

/-- A default-constructed PreviewParams value. -/
def dfltParams : PreviewParams := ⟨0, 0, 0, dfltPhase⟩

/-- Modelled from the spec: the per-phase swing pattern, a duration together
with the resolved 3-D shift per swinging foot. -/
structure SwingParams where
  duration : ℚ
  feet_shift : List (String × Vec3)
  deriving DecidableEq, Repr

/-- The configuration the engine obtains when the robot model is loaded:
the loaded flag, the tunable sample time, gravity, step height, the feet names
and the nominal stance posture expressed in the CoM frame. -/
structure PLConfig where
  robot_model : Bool
  sample_time : ℚ
  gravity : ℚ
  step_height : ℚ
  feet_names : List String
  stance_posture : List (String × Vec3)

/-- Modelled from the spec: the external collaborators whose sources are not
under src, bundled as explicit functions. response and energy stand for the
closed-form cart-table computeResponse and computeSystemEnergy evaluated from
the cached initial state and control parameters; pendulumHeight is the
cart-table accessor; the two frame maps stand for the rotation by the given
roll-pitch-yaw angles and its inverse; terrain is the optional height map;
swing evaluates the foot spline generator from its boundary parameters
(start time, initial position, target position, duration, step height) at an
absolute time. -/
structure Env where
  response : ReducedBodyState → CartTableControlParams → ℚ → Vec3 × Vec3 × Vec3 × Vec3
  energy : ReducedBodyState → CartTableControlParams → Vec3
  pendulumHeight : ℚ
  fromBaseToWorldFrame : Vec3 → Vec3 → Vec3
  fromWorldToBaseFrame : Vec3 → Vec3 → Vec3
  terrain : Option ((ℚ × ℚ) → ℚ)
  swing : ℚ → Vec3 → Vec3 → ℚ → ℚ → ℚ → Vec3 × Vec3 × Vec3

/-- Modelled from the spec: the key-value reads of the missing YamlWrapper; a
read either yields the stored value or reports that the key is absent under
the given namespace, leaving the output argument untouched. -/
structure Yaml where
  readV3 : List String → String → Option Vec3
  readScalar : List String → String → Option ℚ
  readV2 : List String → String → Option (ℚ × ℚ)
  readInt : List String → String → Option Int

/-- The mutable per-instance context of the engine: the actual state recorded
at call entry, the phase state and swing pattern cached by initSwing, the foot
spline generators, and the cart-table response cache set by initResponse. -/
structure MutCtx where
  actualState : ReducedBodyState
  phaseState : ReducedBodyState
  swingParams : SwingParams
  splineGens : List (String × (ℚ × Vec3 × Vec3 × ℚ × ℚ))
  cache : Option (ReducedBodyState × CartTableControlParams)
  deriving DecidableEq

/-- Modelled from the spec: computeResponse of the cart-table model evaluates
the cached closed-form solution at the given absolute time, writing the time
and the CoM and CoP components of the output state; before any initResponse it
leaves the state untouched. -/
def computeResponse (env : Env)
    (cache : Option (ReducedBodyState × CartTableControlParams))
    (s : ReducedBodyState) (t : ℚ) : ReducedBodyState :=
  match cache with
  | none => s
  | some (s0, p) =>
    let r := env.response s0 p t
    { s with time := t, com_pos := r.1, com_vel := r.2.1,
             com_acc := r.2.2.1, cop := r.2.2.2 }

/-- The foothold committed for a foot: the CoM position of the given state
plus the orientation-rotated nominal stance offset and commanded shift, with
the z component from the terrain height map, or from the flat-terrain fallback
that cancels the drift between the actual and the initial CoM height
(PreviewLocomotion.cpp lines 230-264 and 294-324). -/
def commitFoothold (env : Env) (cfg : PLConfig) (state0 : ReducedBodyState)
    (actual : ReducedBodyState) (p : PreviewParams) (name : String) : Vec3 :=
  let stance := (alookup cfg.stance_posture name).getD 0
  let fs2 := p.phase.getFootShift name
  let fs0 : Vec3 := ⟨fs2.1, fs2.2, 0⟩
  let fh := actual.com_pos + env.fromBaseToWorldFrame (stance + fs0) actual.angular_pos
  match env.terrain with
  | some h => ⟨fh.x, fh.y, h (fh.x, fh.y)⟩
  | none =>
    ⟨fh.x, fh.y,
     (-(env.pendulumHeight + stance.z)) - (actual.com_pos.z - state0.com_pos.z)⟩

/-- One foot of the support-region update at a phase boundary: the foot is
erased when the current phase swings it, and its foothold is committed when
the previous phase swung it and that phase lasted longer than the sample time
(PreviewLocomotion.cpp lines 220-266). -/
def supportStep (env : Env) (cfg : PLConfig) (state0 : ReducedBodyState)
    (back : ReducedBodyState) (prevP curP : PreviewParams)
    (sr : List (String × Vec3)) (name : String) : List (String × Vec3) :=
  let sr1 := if curP.phase.isSwingFoot name then aerase sr name else sr
  if prevP.phase.isSwingFoot name ∧ prevP.duration > cfg.sample_time then
    ainsert sr1 name (commitFoothold env cfg state0 back prevP name)
  else sr1

/-- The start state of a phase with index above zero after the support-region
update of PreviewLocomotion.cpp lines 216-267. -/
def updatedStartState (env : Env) (cfg : PLConfig) (state0 : ReducedBodyState)
    (prevP curP : PreviewParams) (back : ReducedBodyState) : ReducedBodyState :=
  let sr := cfg.feet_names.foldl (supportStep env cfg state0 back prevP curP)
    back.support_region
  { back with support_region := sr }

/-- One foot of the trailing foothold commitment of
PreviewLocomotion.cpp lines 288-326. -/
def endStep (env : Env) (cfg : PLConfig) (state0 : ReducedBodyState)
    (actual : ReducedBodyState) (endc : PreviewParams)
    (sr : List (String × Vec3)) (name : String) : List (String × Vec3) :=
  if endc.phase.isSwingFoot name ∧ endc.duration > cfg.sample_time then
    ainsert sr name (commitFoothold env cfg state0 actual endc name)
  else sr

/-- The trailing state appended after the phase loop: the last trajectory
state with the footholds of the last phase committed
(PreviewLocomotion.cpp lines 285-327). -/
def trailingUpdate (env : Env) (cfg : PLConfig) (state0 : ReducedBodyState)
    (actual : ReducedBodyState) (endc : PreviewParams) : ReducedBodyState :=
  let sr := cfg.feet_names.foldl (endStep env cfg state0 actual endc)
    actual.support_region
  { actual with support_region := sr }

/-- initSwing of PreviewLocomotion.cpp lines 503-579: records the phase state,
resolves the swing shift of every foot of the phase against the terminal CoM
state predicted by the cart-table cache, and rebuilds the spline generators of
the feet that swing. -/
def initSwing (env : Env) (cfg : PLConfig) (ctx : MutCtx)
    (state : ReducedBodyState) (params : PreviewParams) : MutCtx :=
  let terminal := computeResponse env ctx.cache dfltState (state.time + params.duration)
  let swing_shift : List (String × Vec3) :=
    params.phase.feet.foldl (fun acc name =>
      let stance := (alookup cfg.stance_posture name).getD 0
      let fs2 := params.phase.getFootShift name
      let fs0 : Vec3 := ⟨fs2.1, fs2.2, 0⟩
      let foothold := terminal.com_pos +
        env.fromBaseToWorldFrame (stance + fs0) terminal.angular_pos
      let fsz : ℚ :=
        match env.terrain with
        | some h => h (foothold.x, foothold.y) - (terminal.com_pos.z + stance.z)
        | none =>
          (-(env.pendulumHeight + stance.z)) -
            (terminal.com_pos.z - ctx.actualState.com_pos.z)
      ainsert acc name ⟨fs0.x, fs0.y, fsz⟩) []
  let gens := state.foot_pos.foldl (fun acc fp =>
    match alookup swing_shift fp.1 with
    | some fsh =>
      let stance_pos := (alookup cfg.stance_posture fp.1).getD 0
      ainsert acc fp.1 (state.time, fp.2, stance_pos + fsh, params.duration, cfg.step_height)
    | none => acc) []
  { ctx with phaseState := state,
             swingParams := ⟨params.duration, swing_shift⟩,
             splineGens := gens }

/-- One foot of generateSwing: a swinging foot gets the spline evaluation and
a grounded foot is recomputed relative to the displaced CoM
(PreviewLocomotion.cpp lines 586-624). -/
def swingStep (env : Env) (ctx : MutCtx) (t : ℚ) (st : ReducedBodyState)
    (fp : String × Vec3) : ReducedBodyState :=
  match alookup ctx.swingParams.feet_shift fp.1 with
  | some _ =>
    let g := (alookup ctx.splineGens fp.1).getD
      ((0 : ℚ), (0 : Vec3), (0 : Vec3), (0 : ℚ), (0 : ℚ))
    let r := env.swing g.1 g.2.1 g.2.2.1 g.2.2.2.1 g.2.2.2.2 t
    { st with foot_pos := ainsert st.foot_pos fp.1 r.1,
              foot_vel := ainsert st.foot_vel fp.1 r.2.1,
              foot_acc := ainsert st.foot_acc fp.1 r.2.2 }
  | none =>
    let com_disp := st.com_pos - ctx.phaseState.com_pos
    { st with
        foot_pos := ainsert st.foot_pos fp.1
          (fp.2 - env.fromWorldToBaseFrame com_disp st.angular_pos),
        foot_vel := ainsert st.foot_vel fp.1
          (env.fromWorldToBaseFrame (-st.com_vel) st.angular_pos),
        foot_acc := ainsert st.foot_acc fp.1
          (env.fromWorldToBaseFrame (-st.com_acc) st.angular_pos) }

/-- generateSwing of PreviewLocomotion.cpp lines 582-625 at the given
absolute time. -/
def generateSwing (env : Env) (ctx : MutCtx) (s : ReducedBodyState) (t : ℚ) :
    ReducedBodyState :=
  ctx.phaseState.foot_pos.foldl (swingStep env ctx t) s

/-- One full-mode stance sample: the sample time relative to the phase start
is the pinned duration at the final index and a multiple of the sample time
before it; the cart-table response is evaluated at the absolute time and the
swing trajectories are generated (PreviewLocomotion.cpp lines 409-434). -/
def stanceSampleF (env : Env) (cfg : PLConfig) (ctx : MutCtx)
    (state : ReducedBodyState) (params : PreviewParams) (n k : Nat) :
    ReducedBodyState :=
  let trel : ℚ := if k = n then params.duration else cfg.sample_time * (k + 1)
  let tabs := state.time + trel
  let s1 := computeResponse env ctx.cache { state with time := tabs } tabs
  generateSwing env ctx s1 tabs

/-- The single summary-mode stance sample, taken at the phase duration with no
swing generation. -/
def stanceSampleS (env : Env) (ctx : MutCtx) (state : ReducedBodyState)
    (params : PreviewParams) : ReducedBodyState :=
  let tabs := state.time + params.duration
  computeResponse env ctx.cache { state with time := tabs } tabs

/-- stancePreview of PreviewLocomotion.cpp lines 374-435: a full-mode phase
shorter than the sample time yields no samples; otherwise the cart-table
response is initialised, the swing generator is initialised in full mode, and
floor(duration / sample_time) + 1 samples are produced in full mode or one
terminal sample in summary mode. -/
def stancePreview (env : Env) (cfg : PLConfig) (ctx : MutCtx)
    (state : ReducedBodyState) (params : PreviewParams) (full : Bool) :
    Option (MutCtx × List ReducedBodyState) :=
  if full ∧ params.duration < cfg.sample_time then some (ctx, [])
  else
    let mp : CartTableControlParams := ⟨params.duration, params.cop_shift⟩
    let ctx1 := { ctx with cache := some (state, mp) }
    let n : Nat := (⌊params.duration / cfg.sample_time⌋).toNat
    if full then
      let ctx2 := initSwing env cfg ctx1 state params
      some (ctx2, (List.range (n + 1)).map (stanceSampleF env cfg ctx2 state params n))
    else
      some (ctx1, [stanceSampleS env ctx1 state params])

/-- One full-mode flight sample: a fresh default state whose CoM follows the
projectile equations under gravity alone, with swing generation
(PreviewLocomotion.cpp lines 468-498). -/
def flightSampleF (env : Env) (cfg : PLConfig) (ctx : MutCtx)
    (state : ReducedBodyState) (params : PreviewParams) (n k : Nat) :
    ReducedBodyState :=
  let trel : ℚ := if k = n then params.duration else cfg.sample_time * (k + 1)
  let g : Vec3 := ⟨0, 0, -cfg.gravity⟩
  let s0 := { dfltState with
    time := state.time + trel,
    com_pos := state.com_pos + state.com_vel * trel + ((1 / 2 : ℚ) * g) * trel * trel,
    com_vel := state.com_vel + g * trel,
    com_acc := g }
  generateSwing env ctx s0 (state.time + trel)

/-- The single summary-mode flight sample, taken at the phase duration with no
swing generation. -/
def flightSampleS (cfg : PLConfig) (state : ReducedBodyState)
    (params : PreviewParams) : ReducedBodyState :=
  let g : Vec3 := ⟨0, 0, -cfg.gravity⟩
  { dfltState with
    time := state.time + params.duration,
    com_pos := state.com_pos + state.com_vel * params.duration +
      ((1 / 2 : ℚ) * g) * params.duration * params.duration,
    com_vel := state.com_vel + g * params.duration,
    com_acc := g }

/-- A bounds-checked write into a trajectory, modelling assignment through the
std::vector subscript operator: an index past the end is undefined behaviour,
reported here as none. -/
def setChecked {α : Type} (l : List α) (i : Nat) (a : α) : Option (List α) :=
  if i < l.length then some (l.set i a) else none

/-- A sequence of bounds-checked writes. -/
def writeAll {α : Type} : List α → List (Nat × α) → Option (List α)
  | l, [] => some l
  | l, (i, a) :: ws =>
    match setChecked l i a with
    | none => none
    | some l2 => writeAll l2 ws

/-- flightPreview of PreviewLocomotion.cpp lines 438-499: the same guard and
sampling policy as stancePreview, except that in full mode the trajectory is
resized to floor(duration / sample_time) slots while the loop writes indices
up to and including that count, so the final write is out of bounds. -/
def flightPreview (env : Env) (cfg : PLConfig) (ctx : MutCtx)
    (state : ReducedBodyState) (params : PreviewParams) (full : Bool) :
    Option (MutCtx × List ReducedBodyState) :=
  if full ∧ params.duration < cfg.sample_time then some (ctx, [])
  else
    let n : Nat := (⌊params.duration / cfg.sample_time⌋).toNat
    if full then
      let ctx2 := initSwing env cfg ctx state params
      match writeAll (List.replicate n dfltState)
          ((List.range (n + 1)).map
            (fun k => (k, flightSampleF env cfg ctx2 state params n k))) with
      | none => none
      | some tr => some (ctx2, tr)
    else
      some (ctx, [flightSampleS cfg state params])

/-- The start state of one phase of the loop: the initial state for the first
phase, otherwise the last trajectory state, updated when the duration of the
current phase exceeds the sample time (PreviewLocomotion.cpp lines 212-268). -/
def startStateOf (env : Env) (cfg : PLConfig) (state0 : ReducedBodyState)
    (prevOpt : Option PreviewParams) (traj : List ReducedBodyState)
    (p : PreviewParams) : Option ReducedBodyState :=
  match prevOpt with
  | none => some state0
  | some prevP =>
    match traj.getLast? with
    | none => none
    | some back =>
      some (if p.duration > cfg.sample_time then
              updatedStartState env cfg state0 prevP p back
            else back)

/-- The dispatch on the phase tag at PreviewLocomotion.cpp lines 271-275. -/
def previewDispatch (env : Env) (cfg : PLConfig) (ty : TypeOfPhase)
    (ctx : MutCtx) (start : ReducedBodyState) (p : PreviewParams)
    (full : Bool) : Option (MutCtx × List ReducedBodyState) :=
  match ty with
  | TypeOfPhase.STANCE => stancePreview env cfg ctx start p full
  | TypeOfPhase.FLIGHT => flightPreview env cfg ctx start p full

/-- The phase loop of multiPhasePreview (PreviewLocomotion.cpp lines
206-283): each phase previews from its start state, the phase trajectory is
appended, and when the accumulated trajectory is empty the initial state is
pushed as a sanity action. -/
def phasesLoop (env : Env) (cfg : PLConfig) (state0 : ReducedBodyState)
    (full : Bool) :
    List PreviewParams → Option PreviewParams → MutCtx →
    List ReducedBodyState → Option (MutCtx × List ReducedBodyState)
  | [], _, ctx, traj => some (ctx, traj)
  | p :: rest, prevOpt, ctx, traj =>
    (startStateOf env cfg state0 prevOpt traj p).bind (fun start =>
      (previewDispatch env cfg p.phase.type ctx start p full).bind (fun r =>
        phasesLoop env cfg state0 full rest (some p) r.1
          (if (traj ++ r.2).length = 0 then [state0] else traj ++ r.2)))

/-- multiPhasePreview of PreviewLocomotion.cpp lines 187-328: with no robot
model the caller trajectory is returned untouched; otherwise the actual state
is recorded, the trajectory is cleared, the phase loop runs, and one trailing
state with the last-phase footholds committed is appended. Accesses to the
last element of an empty trajectory or an empty control are undefined
behaviour, reported here as none. -/
def multiPhasePreview (env : Env) (cfg : PLConfig) (ctx : MutCtx)
    (traj0 : List ReducedBodyState) (state : ReducedBodyState)
    (control : PreviewControl) (full : Bool) : Option (List ReducedBodyState) :=
  if cfg.robot_model = false then some traj0
  else
    (phasesLoop env cfg state full control.params none
        { ctx with actualState := state } []).bind (fun r =>
      (r.2.getLast?).bind (fun last =>
        (control.params.getLast?).bind (fun endc =>
          some (r.2 ++ [trailingUpdate env cfg state last endc]))))

/-- One phase of multiPhaseEnergy: the cart-table energy of the phase is
accumulated for STANCE phases only, and the running state is advanced by one
computeResponse call (PreviewLocomotion.cpp lines 349-370). -/
def energyStep (env : Env)
    (cache : Option (ReducedBodyState × CartTableControlParams))
    (acc : ReducedBodyState × Vec3) (p : PreviewParams) :
    ReducedBodyState × Vec3 :=
  let e := if p.phase.type = TypeOfPhase.STANCE then
             acc.2 + env.energy acc.1 ⟨p.duration, p.cop_shift⟩
           else acc.2
  (computeResponse env cache acc.1 (acc.1.time + p.duration), e)

/-- multiPhaseEnergy of PreviewLocomotion.cpp lines 331-371: with no robot
model the caller energy is returned untouched; otherwise the energy is zeroed
and accumulated over the phases. -/
def multiPhaseEnergy (env : Env) (cfg : PLConfig) (ctx : MutCtx) (e0 : Vec3)
    (state : ReducedBodyState) (control : PreviewControl) : Vec3 :=
  if cfg.robot_model = false then e0
  else (control.params.foldl (energyStep env ctx.cache) (state, (0 : Vec3))).2

/-- The error text printed when the robot model is not loaded. -/
def msgUninit : String := "Error: the robot model was not initialized"

/-- The error text printed when com_pos is absent. -/
def msgComPos : String := "Error: the CoM height was not found"

/-- The error text printed when com_vel is absent. -/
def msgComVel : String := "Error: the CoM velocity was not found"

/-- The error text printed when cop is absent. -/
def msgCop : String := "Error: the CoP was not found"

/-- The error text printed when number_phase is absent. -/
def msgNumPhase : String := "Error: the number_phase was not found"

/-- The error text printed when the duration of a phase is absent. -/
def msgDuration (k : Nat) : String :=
  "Error: the duration of phase_" ++ toString k ++ " was not found"

/-- The error text printed when the head_acc of a stance phase is absent. -/
def msgHeadAcc (k : Nat) : String :=
  "Error: the head_acc of phase_" ++ toString k ++ " was not found"

/-- The namespace of the state keys of a preview sequence file. -/
def stateNs : List String := ["preview_sequence", "state"]

/-- The namespace of the control keys of a preview sequence file. -/
def controlNs : List String := ["preview_sequence", "preview_control"]

/-- The namespace of the keys of one phase of a preview sequence file. -/
def phaseNs (k : Nat) : List String :=
  ["preview_sequence", "preview_control", "phase_" ++ toString k]

/-- std::vector::resize applied to a list: the existing elements up to the new
size are kept, and the list is padded with default values. -/
def listResize {α : Type} (l : List α) (n : Nat) (d : α) : List α :=
  l.take n ++ List.replicate (n - l.length) d

/-- The footstep shift reads of one phase (PreviewLocomotion.cpp lines
153-164): every configured foot found under the phase namespace is appended to
the phase feet, marked swinging and given its shift. -/
def readFeet (yaml : Yaml) (cfg : PLConfig) (ns : List String)
    (p : PreviewParams) : PreviewParams :=
  cfg.feet_names.foldl (fun q name =>
    match yaml.readV2 ns name with
    | some fs =>
      { q with phase := { q.phase with
          feet := q.phase.feet ++ [name],
          swing_feet := q.phase.swing_feet ++ [name],
          foot_shift := ainsert q.phase.foot_shift name fs } }
    | none => q) p

/-- The reads of one phase of a preview sequence (PreviewLocomotion.cpp lines
127-165): the duration is required; the presence of cop_shift makes the phase
STANCE, in which case head_acc is also required; a missing required key stops
the read and keeps the partially updated phase. -/
def readPhase (yaml : Yaml) (cfg : PLConfig) (k : Nat) (p0 : PreviewParams) :
    PreviewParams × Option String :=
  match yaml.readScalar (phaseNs k) "duration" with
  | none => (p0, some (msgDuration k))
  | some d =>
    let p1 := { p0 with duration := d }
    let p2 :=
      match yaml.readV3 (phaseNs k) "cop_shift" with
      | some cs =>
        { p1 with cop_shift := cs,
                  phase := { p1.phase with type := TypeOfPhase.STANCE } }
      | none => p1
    if p2.phase.type = TypeOfPhase.STANCE then
      match yaml.readScalar (phaseNs k) "head_acc" with
      | none => (p2, some (msgHeadAcc k))
      | some ha => (readFeet yaml cfg (phaseNs k) { p2 with head_acc := ha }, none)
    else (readFeet yaml cfg (phaseNs k) p2, none)

/-- The phase loop of readPreviewSequence: phases are read in order and the
first missing required key aborts the loop, keeping the phases already read
and the partially read phase. -/
def readPhasesLoop (yaml : Yaml) (cfg : PLConfig) :
    Nat → List PreviewParams → List PreviewParams × Option String
  | _, [] => ([], none)
  | k, p :: rest =>
    match readPhase yaml cfg k p with
    | (p2, some e) => (p2 :: rest, some e)
    | (p2, none) =>
      let r := readPhasesLoop yaml cfg (k + 1) rest
      (p2 :: r.1, r.2)

/-- readPreviewSequence of PreviewLocomotion.cpp lines 84-166: the function
returns only through its two output arguments; the third component collects
the error text printed when a read aborts. A missing required key aborts the
read, keeping the fields already parsed. -/
def readPreviewSequence (yaml : Yaml) (cfg : PLConfig)
    (state0 : ReducedBodyState) (control0 : PreviewControl) :
    ReducedBodyState × PreviewControl × List String :=
  if cfg.robot_model = false then (state0, control0, [msgUninit])
  else
    match yaml.readV3 stateNs "com_pos" with
    | none => (state0, control0, [msgComPos])
    | some cp =>
      let s1 := { state0 with com_pos := cp }
      match yaml.readV3 stateNs "com_vel" with
      | none => (s1, control0, [msgComVel])
      | some cv =>
        let s2 := { s1 with com_vel := cv }
        match yaml.readV3 stateNs "cop" with
        | none => (s2, control0, [msgCop])
        | some cq =>
          let s3 := { s2 with cop := cq }
          match yaml.readInt controlNs "number_phase" with
          | none => (s3, control0, [msgNumPhase])
          | some np =>
            let ps0 := listResize control0.params np.toNat dfltParams
            match readPhasesLoop yaml cfg 0 ps0 with
            | (ps, some e) => (s3, { control0 with params := ps }, [e])
            | (ps, none) => (s3, { control0 with params := ps }, [])

/-- A concrete collaborator bundle used to evaluate the engine on closed
inputs: the cart-table response holds the cached initial CoM state, the frame
maps are the identity, there is no terrain map and the spline evaluator
returns the origin. -/
def envW : Env where
  response := fun s0 _ _ => (s0.com_pos, s0.com_vel, s0.com_acc, s0.cop)
  energy := fun s mp => ⟨mp.duration, s.time, s.com_pos.z⟩
  pendulumHeight := 1
  fromBaseToWorldFrame := fun v _ => v
  fromWorldToBaseFrame := fun v _ => v
  terrain := none
  swing := fun _ _ _ _ _ _ => (0, 0, 0)

/-- A concrete loaded-robot configuration with one foot named LF and a sample
time of one tenth. -/
def cfgW : PLConfig where
  robot_model := true
  sample_time := 1 / 10
  gravity := 981 / 100
  step_height := 1 / 10
  feet_names := ["LF"]
  stance_posture := [("LF", ⟨0, 1, -1⟩)]

/-- The same configuration with the robot model not loaded. -/
def cfgOff : PLConfig := { cfgW with robot_model := false }

/-- A concrete fresh mutable context: default states and an empty cart-table
cache. -/
def ctxW : MutCtx where
  actualState := dfltState
  phaseState := dfltState
  swingParams := ⟨0, []⟩
  splineGens := []
  cache := none

/-- A concrete initial reduced state whose support region holds the foot
LF. -/
def stateW : ReducedBodyState :=
  { dfltState with
      com_pos := ⟨0, 0, 1⟩,
      support_region := [("LF", ⟨0, 1, 0⟩)],
      foot_pos := [("LF", ⟨0, 1, -1⟩)] }

/-- A STANCE phase of duration one half with no swinging foot. -/
def pStance05 : PreviewParams :=
  { duration := 1 / 2, cop_shift := ⟨1 / 100, 0, 0⟩, head_acc := 0,
    phase := ⟨TypeOfPhase.STANCE, [], [], []⟩ }

/-- A STANCE phase of duration one twentieth, below the sample time of
cfgW. -/
def pShort : PreviewParams :=
  { duration := 1 / 20, cop_shift := 0, head_acc := 0,
    phase := ⟨TypeOfPhase.STANCE, [], [], []⟩ }

/-- A STANCE phase whose duration equals the sample time of cfgW. -/
def pEq : PreviewParams :=
  { duration := 1 / 10, cop_shift := 0, head_acc := 0,
    phase := ⟨TypeOfPhase.STANCE, [], [], []⟩ }

/-- A STANCE phase of duration two fifths that swings the foot LF. -/
def pSwing : PreviewParams :=
  { duration := 2 / 5, cop_shift := 0, head_acc := 0,
    phase := ⟨TypeOfPhase.STANCE, ["LF"], ["LF"], [("LF", (1 / 10, 0))]⟩ }

/-- A FLIGHT phase of duration one half. -/
def pFlight : PreviewParams :=
  { duration := 1 / 2, cop_shift := 0, head_acc := 0,
    phase := ⟨TypeOfPhase.FLIGHT, [], [], []⟩ }

/-- The two-phase control of the C2 counterexample: a degenerate stance phase
followed by a swing stance phase. -/
def ctrlC2 : PreviewControl := ⟨[pShort, pSwing]⟩

/-- A one-phase control whose single phase swings LF. -/
def ctrlSwing : PreviewControl := ⟨[pSwing]⟩

/-- A one-phase control with the scenario stance phase. -/
def ctrlOne : PreviewControl := ⟨[pStance05]⟩

/-- A concrete preview-sequence store that provides com_pos and com_vel but
no cop key. -/
def yamlA : Yaml where
  readV3 := fun ns key =>
    if ns = stateNs ∧ key = "com_pos" then some ⟨1, 2, 3⟩
    else if ns = stateNs ∧ key = "com_vel" then some ⟨4, 5, 6⟩
    else none
  readScalar := fun _ _ => none
  readV2 := fun _ _ => none
  readInt := fun _ _ => none

/-- A concrete preview-sequence store that provides the full state namespace
and zero phases. -/
def yamlB : Yaml where
  readV3 := fun ns key =>
    if ns = stateNs ∧ key = "com_pos" then some ⟨1, 2, 3⟩
    else if ns = stateNs ∧ key = "com_vel" then some ⟨4, 5, 6⟩
    else if ns = stateNs ∧ key = "cop" then some ⟨7, 8, 9⟩
    else none
  readScalar := fun _ _ => none
  readV2 := fun _ _ => none
  readInt := fun ns key =>
    if ns = controlNs ∧ key = "number_phase" then some 0 else none

/-- A concrete initial state for the configuration reads, whose cop equals
the cop stored in yamlB. -/
def stateY : ReducedBodyState := { dfltState with cop := ⟨7, 8, 9⟩ }

/-- An empty control value for the configuration reads. -/
def ctrlEmpty : PreviewControl := ⟨[]⟩

/-- A concrete preview-sequence store with a full state namespace, two phases,
a duration for phase zero and no duration for phase one. -/
def yamlC : Yaml where
  readV3 := fun ns key =>
    if ns = stateNs ∧ key = "com_pos" then some ⟨1, 2, 3⟩
    else if ns = stateNs ∧ key = "com_vel" then some ⟨4, 5, 6⟩
    else if ns = stateNs ∧ key = "cop" then some ⟨7, 8, 9⟩
    else none
  readScalar := fun ns key =>
    if ns = phaseNs 0 ∧ key = "duration" then some 1 else none
  readV2 := fun _ _ => none
  readInt := fun ns key =>
    if ns = controlNs ∧ key = "number_phase" then some 2 else none

/-- A concrete preview-sequence store whose phase zero has a duration and a
cop_shift, making it a STANCE phase, but no head_acc key. -/
def yamlD : Yaml where
  readV3 := fun ns key =>
    if ns = phaseNs 0 ∧ key = "cop_shift" then some ⟨0, 0, 0⟩ else none
  readScalar := fun ns key =>
    if ns = phaseNs 0 ∧ key = "duration" then some 1 else none
  readV2 := fun _ _ => none
  readInt := fun _ _ => none

/-- Agreement of two mutable contexts on the fields that a preview call reads
before writing: the actual state recorded at entry and the cart-table
cache. -/
def CtxRel (c1 c2 : MutCtx) : Prop :=
  c1.actualState = c2.actualState ∧ c1.cache = c2.cache

/-- Agreement of two optional phase results: both fail, or both succeed with
related contexts and equal trajectories. -/
def ORel : Option (MutCtx × List ReducedBodyState) →
    Option (MutCtx × List ReducedBodyState) → Prop
  | none, none => True
  | some r1, some r2 => CtxRel r1.1 r2.1 ∧ r1.2 = r2.2
  | _, _ => False

theorem alookup_ainsert_self {α : Type} (l : List (String × α)) (k : String)
    (v : α) : alookup (ainsert l k v) k = some v := by
  induction l with
  | nil => simp [ainsert, alookup]
  | cons h t ih =>
    obtain ⟨a, b⟩ := h
    by_cases hk : a = k
    · simp [ainsert, hk, alookup]
    · simp [ainsert, hk, alookup, ih]

theorem alookup_ainsert_ne {α : Type} (l : List (String × α)) (k n : String)
    (v : α) (hne : k ≠ n) : alookup (ainsert l k v) n = alookup l n := by
  induction l with
  | nil => simp [ainsert, alookup, hne]
  | cons h t ih =>
    obtain ⟨a, b⟩ := h
    by_cases hk : a = k
    · subst hk; simp [ainsert, alookup, hne]
    · simp [ainsert, hk, alookup, ih]

theorem alookup_aerase_self {α : Type} (l : List (String × α)) (k : String) :
    alookup (aerase l k) k = none := by
  induction l with
  | nil => simp [aerase, alookup]
  | cons h t ih =>
    obtain ⟨a, b⟩ := h
    by_cases hk : a = k
    · simp [aerase, hk, ih]
    · simp [aerase, hk, alookup, ih]

theorem alookup_aerase_ne {α : Type} (l : List (String × α)) (k n : String)
    (hne : k ≠ n) : alookup (aerase l k) n = alookup l n := by
  induction l with
  | nil => simp [aerase]
  | cons h t ih =>
    obtain ⟨a, b⟩ := h
    by_cases hk : a = k
    · subst hk; simp [aerase, alookup, hne, ih]
    · simp [aerase, hk, alookup, ih]

theorem foldl_step_lookup_of_not_mem {α : Type}
    {step : List (String × α) → String → List (String × α)}
    (hne : ∀ sr n name, n ≠ name → alookup (step sr n) name = alookup sr name) :
    ∀ (names : List String) (sr : List (String × α)) (name : String),
      name ∉ names → alookup (names.foldl step sr) name = alookup sr name := by
  intro names
  induction names with
  | nil => intro sr name _; rfl
  | cons h t ih =>
    intro sr name hmem
    have h1 : h ≠ name := fun he => hmem (he ▸ List.mem_cons_self h t)
    have h2 : name ∉ t := fun ht => hmem (List.mem_cons_of_mem h ht)
    simp only [List.foldl_cons]
    rw [ih (step sr h) name h2, hne sr h name h1]

theorem foldl_step_lookup {α : Type}
    {step : List (String × α) → String → List (String × α)}
    {G : String → Option α → Option α}
    (hne : ∀ sr n name, n ≠ name → alookup (step sr n) name = alookup sr name)
    (hself : ∀ sr name, alookup (step sr name) name = G name (alookup sr name)) :
    ∀ (names : List String), names.Nodup →
      ∀ (sr : List (String × α)) (name : String),
        alookup (names.foldl step sr) name =
          if name ∈ names then G name (alookup sr name) else alookup sr name := by
  intro names
  induction names with
  | nil => intro _ sr name; simp
  | cons h t ih =>
    intro hnd sr name
    obtain ⟨hh, ht⟩ := List.nodup_cons.mp hnd
    simp only [List.foldl_cons]
    by_cases he : name = h
    · subst he
      rw [foldl_step_lookup_of_not_mem hne t (step sr name) name hh]
      rw [hself sr name]
      simp
    · rw [ih ht (step sr h) name]
      rw [hne sr h name (fun x => he x.symm)]
      simp [List.mem_cons, he]

theorem swingStep_time (env : Env) (ctx : MutCtx) (t : ℚ)
    (st : ReducedBodyState) (fp : String × Vec3) :
    (swingStep env ctx t st fp).time = st.time := by
  unfold swingStep
  split <;> rfl

theorem foldl_swingStep_time (env : Env) (ctx : MutCtx) (t : ℚ) :
    ∀ (l : List (String × Vec3)) (s : ReducedBodyState),
      (l.foldl (swingStep env ctx t) s).time = s.time := by
  intro l
  induction l with
  | nil => intro s; rfl
  | cons h tl ih =>
    intro s
    simp only [List.foldl_cons]
    rw [ih, swingStep_time]

theorem generateSwing_time (env : Env) (ctx : MutCtx) (s : ReducedBodyState)
    (t : ℚ) : (generateSwing env ctx s t).time = s.time :=
  foldl_swingStep_time env ctx t ctx.phaseState.foot_pos s

theorem computeResponse_time_set (env : Env)
    (c : Option (ReducedBodyState × CartTableControlParams))
    (s : ReducedBodyState) (t : ℚ) :
    (computeResponse env c { s with time := t } t).time = t := by
  rcases c with _ | ⟨s0, mp⟩ <;> rfl

theorem stanceSampleF_time (env : Env) (cfg : PLConfig) (ctx : MutCtx)
    (state : ReducedBodyState) (params : PreviewParams) (n k : Nat) :
    (stanceSampleF env cfg ctx state params n k).time =
      state.time + (if k = n then params.duration else cfg.sample_time * (k + 1)) := by
  unfold stanceSampleF
  rw [generateSwing_time, computeResponse_time_set]

theorem writeAll_some_bound {α : Type} :
    ∀ (ws : List (Nat × α)) (l l2 : List α), writeAll l ws = some l2 →
      ∀ p ∈ ws, p.1 < l.length := by
  intro ws
  induction ws with
  | nil => intro l l2 _ p hp; cases hp
  | cons w tl ih =>
    intro l l2 hw p hp
    obtain ⟨i, a⟩ := w
    simp only [writeAll] at hw
    rcases hsc : setChecked l i a with _ | l3
    · rw [hsc] at hw; cases hw
    · rw [hsc] at hw
      have hi : i < l.length := by
        by_contra hni
        unfold setChecked at hsc
        rw [if_neg hni] at hsc
        cases hsc
      have hlen : l3.length = l.length := by
        unfold setChecked at hsc
        rw [if_pos hi] at hsc
        cases hsc
        simp
      rcases List.mem_cons.mp hp with hp2 | hp2
      · subst hp2; exact hi
      · have := ih l3 l2 hw p hp2
        rw [hlen] at this
        exact this

theorem endStep_lookup_ne (env : Env) (cfg : PLConfig)
    (state0 actual : ReducedBodyState) (endc : PreviewParams)
    (sr : List (String × Vec3)) (n name : String) (hne : n ≠ name) :
    alookup (endStep env cfg state0 actual endc sr n) name = alookup sr name := by
  unfold endStep
  split
  · rw [alookup_ainsert_ne _ _ _ _ hne]
  · rfl

theorem endStep_lookup_self (env : Env) (cfg : PLConfig)
    (state0 actual : ReducedBodyState) (endc : PreviewParams)
    (sr : List (String × Vec3)) (name : String) :
    alookup (endStep env cfg state0 actual endc sr name) name =
      if endc.phase.isSwingFoot name ∧ endc.duration > cfg.sample_time
      then some (commitFoothold env cfg state0 actual endc name)
      else alookup sr name := by
  unfold endStep
  split <;> simp_all [alookup_ainsert_self]

theorem supportStep_lookup_ne (env : Env) (cfg : PLConfig)
    (state0 back : ReducedBodyState) (prevP curP : PreviewParams)
    (sr : List (String × Vec3)) (n name : String) (hne : n ≠ name) :
    alookup (supportStep env cfg state0 back prevP curP sr n) name =
      alookup sr name := by
  unfold supportStep
  by_cases hcur : curP.phase.isSwingFoot n
  · by_cases hprev : prevP.phase.isSwingFoot n ∧ prevP.duration > cfg.sample_time
    · simp only [if_pos hcur, if_pos hprev]
      rw [alookup_ainsert_ne _ _ _ _ hne, alookup_aerase_ne _ _ _ hne]
    · simp only [if_pos hcur, if_neg hprev]
      rw [alookup_aerase_ne _ _ _ hne]
  · by_cases hprev : prevP.phase.isSwingFoot n ∧ prevP.duration > cfg.sample_time
    · simp only [if_neg hcur, if_pos hprev]
      rw [alookup_ainsert_ne _ _ _ _ hne]
    · simp only [if_neg hcur, if_neg hprev]

theorem supportStep_lookup_self (env : Env) (cfg : PLConfig)
    (state0 back : ReducedBodyState) (prevP curP : PreviewParams)
    (sr : List (String × Vec3)) (name : String) :
    alookup (supportStep env cfg state0 back prevP curP sr name) name =
      if prevP.phase.isSwingFoot name ∧ prevP.duration > cfg.sample_time
      then some (commitFoothold env cfg state0 back prevP name)
      else if curP.phase.isSwingFoot name then none
      else alookup sr name := by
  unfold supportStep
  by_cases hprev : prevP.phase.isSwingFoot name ∧ prevP.duration > cfg.sample_time
  · simp only [if_pos hprev, alookup_ainsert_self]
  · by_cases hcur : curP.phase.isSwingFoot name
    · simp only [if_neg hprev, if_pos hcur, alookup_aerase_self]
    · simp only [if_neg hprev, if_neg hcur]

theorem trailingUpdate_lookup (env : Env) (cfg : PLConfig)
    (state0 actual : ReducedBodyState) (endc : PreviewParams)
    (hnd : cfg.feet_names.Nodup) (name : String) :
    alookup (trailingUpdate env cfg state0 actual endc).support_region name =
      if name ∈ cfg.feet_names ∧ endc.phase.isSwingFoot name ∧
          endc.duration > cfg.sample_time
      then some (commitFoothold env cfg state0 actual endc name)
      else alookup actual.support_region name := by
  have hmain := @foldl_step_lookup Vec3
    (endStep env cfg state0 actual endc)
    (fun n o =>
      if endc.phase.isSwingFoot n ∧ endc.duration > cfg.sample_time
      then some (commitFoothold env cfg state0 actual endc n) else o)
    (fun sr n nm hne => endStep_lookup_ne env cfg state0 actual endc sr n nm hne)
    (fun sr nm => endStep_lookup_self env cfg state0 actual endc sr nm)
    cfg.feet_names hnd actual.support_region name
  show alookup (cfg.feet_names.foldl (endStep env cfg state0 actual endc)
      actual.support_region) name = _
  rw [hmain]
  by_cases hmem : name ∈ cfg.feet_names
  · by_cases hc : endc.phase.isSwingFoot name ∧ endc.duration > cfg.sample_time
    · simp [hmem, hc]
    · simp [hmem, hc]
  · simp [hmem]

theorem updatedStartState_lookup (env : Env) (cfg : PLConfig)
    (state0 back : ReducedBodyState) (prevP curP : PreviewParams)
    (hnd : cfg.feet_names.Nodup) (name : String) :
    alookup (updatedStartState env cfg state0 prevP curP back).support_region name =
      if name ∈ cfg.feet_names ∧ prevP.phase.isSwingFoot name ∧
          prevP.duration > cfg.sample_time
      then some (commitFoothold env cfg state0 back prevP name)
      else if name ∈ cfg.feet_names ∧ curP.phase.isSwingFoot name then none
      else alookup back.support_region name := by
  have hmain := @foldl_step_lookup Vec3
    (supportStep env cfg state0 back prevP curP)
    (fun n o =>
      if prevP.phase.isSwingFoot n ∧ prevP.duration > cfg.sample_time
      then some (commitFoothold env cfg state0 back prevP n)
      else if curP.phase.isSwingFoot n then none else o)
    (fun sr n nm hne => supportStep_lookup_ne env cfg state0 back prevP curP sr n nm hne)
    (fun sr nm => supportStep_lookup_self env cfg state0 back prevP curP sr nm)
    cfg.feet_names hnd back.support_region name
  show alookup (cfg.feet_names.foldl (supportStep env cfg state0 back prevP curP)
      back.support_region) name = _
  rw [hmain]
  by_cases hmem : name ∈ cfg.feet_names
  · by_cases hp : prevP.phase.isSwingFoot name ∧ prevP.duration > cfg.sample_time
    · simp [hmem, hp]
    · by_cases hc : curP.phase.isSwingFoot name
      · simp [hmem, hp, hc]
      · simp [hmem, hp, hc]
  · simp [hmem]

theorem vec3_zero_add (v : Vec3) : (0 : Vec3) + v = v := by
  cases v with
  | mk a b c =>
    show Vec3.mk (0 + a) (0 + b) (0 + c) = Vec3.mk a b c
    simp

theorem energy_foldl_allflight (env : Env)
    (cache : Option (ReducedBodyState × CartTableControlParams)) :
    ∀ (ps : List PreviewParams) (s : ReducedBodyState) (e : Vec3),
      (∀ r ∈ ps, r.phase.type = TypeOfPhase.FLIGHT) →
      (ps.foldl (energyStep env cache) (s, e)).2 = e := by
  intro ps
  induction ps with
  | nil => intro s e _; rfl
  | cons p tl ih =>
    intro s e hall
    have hp : p.phase.type = TypeOfPhase.FLIGHT := hall p (List.mem_cons_self p tl)
    simp only [List.foldl_cons]
    have hstep : energyStep env cache (s, e) p =
        (computeResponse env cache s (s.time + p.duration), e) := by
      simp [energyStep, hp]
    rw [hstep]
    exact ih _ _ (fun r hr => hall r (List.mem_cons_of_mem p hr))

theorem phasesLoop_traj_ne_nil (env : Env) (cfg : PLConfig)
    (state0 : ReducedBodyState) (full : Bool) :
    ∀ (ps : List PreviewParams) (prevOpt : Option PreviewParams) (ctx : MutCtx)
      (traj : List ReducedBodyState) (r : MutCtx × List ReducedBodyState),
      (ps ≠ [] ∨ traj ≠ []) →
      phasesLoop env cfg state0 full ps prevOpt ctx traj = some r → r.2 ≠ [] := by
  intro ps
  induction ps with
  | nil =>
    intro prevOpt ctx traj r hd hr
    simp only [phasesLoop] at hr
    cases hr
    rcases hd with hd | hd
    · exact absurd rfl hd
    · exact hd
  | cons p rest ih =>
    intro prevOpt ctx traj r _ hr
    simp only [phasesLoop] at hr
    rcases hso : startStateOf env cfg state0 prevOpt traj p with _ | start
    · rw [hso] at hr; simp at hr
    · rw [hso] at hr
      simp only [Option.some_bind] at hr
      rcases hpr : previewDispatch env cfg p.phase.type ctx start p full with _ | r2
      · rw [hpr] at hr; simp at hr
      · rw [hpr] at hr
        simp only [Option.some_bind] at hr
        have h3 : (if (traj ++ r2.2).length = 0 then [state0] else traj ++ r2.2) ≠ [] := by
          split
          · simp
          · next hlen => exact fun hnil => by rw [hnil] at hlen; exact hlen rfl
        exact ih (some p) r2.1 _ r (Or.inr h3) hr

theorem orel_refl (o : Option (MutCtx × List ReducedBodyState)) : ORel o o := by
  cases o with
  | none => trivial
  | some r => exact ⟨⟨rfl, rfl⟩, rfl⟩

theorem stancePreview_orel (env : Env) (cfg : PLConfig) {c1 c2 : MutCtx}
    (h : CtxRel c1 c2) (s : ReducedBodyState) (p : PreviewParams)
    (full : Bool) :
    ORel (stancePreview env cfg c1 s p full) (stancePreview env cfg c2 s p full) := by
  obtain ⟨ha, hc⟩ := h
  obtain ⟨a1, p1, w1, g1, ch1⟩ := c1
  obtain ⟨a2, p2, w2, g2, ch2⟩ := c2
  cases ha
  cases hc
  unfold stancePreview
  split_ifs with h1 h2
  · exact ⟨⟨rfl, rfl⟩, rfl⟩
  · exact orel_refl _
  · exact ⟨⟨rfl, rfl⟩, rfl⟩

theorem flightPreview_orel (env : Env) (cfg : PLConfig) {c1 c2 : MutCtx}
    (h : CtxRel c1 c2) (s : ReducedBodyState) (p : PreviewParams)
    (full : Bool) :
    ORel (flightPreview env cfg c1 s p full) (flightPreview env cfg c2 s p full) := by
  obtain ⟨ha, hc⟩ := h
  obtain ⟨a1, p1, w1, g1, ch1⟩ := c1
  obtain ⟨a2, p2, w2, g2, ch2⟩ := c2
  cases ha
  cases hc
  unfold flightPreview
  split_ifs with h1 h2
  · exact ⟨⟨rfl, rfl⟩, rfl⟩
  · exact orel_refl _
  · exact ⟨⟨rfl, rfl⟩, rfl⟩

theorem previewDispatch_orel (env : Env) (cfg : PLConfig) (ty : TypeOfPhase)
    {c1 c2 : MutCtx} (h : CtxRel c1 c2) (s : ReducedBodyState)
    (p : PreviewParams) (full : Bool) :
    ORel (previewDispatch env cfg ty c1 s p full)
      (previewDispatch env cfg ty c2 s p full) := by
  cases ty
  · exact stancePreview_orel env cfg h s p full
  · exact flightPreview_orel env cfg h s p full

theorem phasesLoop_orel (env : Env) (cfg : PLConfig) (state0 : ReducedBodyState)
    (full : Bool) :
    ∀ (ps : List PreviewParams) (prevOpt : Option PreviewParams)
      (traj : List ReducedBodyState) {c1 c2 : MutCtx}, CtxRel c1 c2 →
      ORel (phasesLoop env cfg state0 full ps prevOpt c1 traj)
        (phasesLoop env cfg state0 full ps prevOpt c2 traj) := by
  intro ps
  induction ps with
  | nil => intro prevOpt traj c1 c2 h; exact ⟨h, rfl⟩
  | cons p rest ih =>
    intro prevOpt traj c1 c2 h
    simp only [phasesLoop]
    rcases hso : startStateOf env cfg state0 prevOpt traj p with _ | start
    · simp only [Option.none_bind]; exact orel_refl none
    · simp only [Option.some_bind]
      have hd := previewDispatch_orel env cfg p.phase.type h start p full
      rcases h1 : previewDispatch env cfg p.phase.type c1 start p full with _ | r1 <;>
        rcases h2 : previewDispatch env cfg p.phase.type c2 start p full with _ | r2 <;>
        rw [h1, h2] at hd
      · exact orel_refl none
      · exact hd.elim
      · exact hd.elim
      · simp only [Option.some_bind]
        obtain ⟨hctx, htr⟩ := hd
        obtain ⟨cA, trA⟩ := r1
        obtain ⟨cB, trB⟩ := r2
        simp only at hctx htr
        cases htr
        exact ih (some p) _ hctx

/-- C1: a STANCE phase previewed in full mode with duration at least the
sample time produces floor(duration / sample_time) samples at times
start_time + sample_time, start_time + 2 sample_time and so on, plus the final
sample pinned exactly at start_time + duration; in particular the sample at
every index k up to floor(duration / sample_time) carries time start_time +
k+1 times the sample time, except the final index, whose time is exactly
start_time + duration even when the duration is not a multiple of the sample
time. -/
theorem C1_stance_sampling (env : Env) (cfg : PLConfig) (ctx : MutCtx)
    (state : ReducedBodyState) (params : PreviewParams)
    (h1 : cfg.sample_time ≤ params.duration) :
    ((stancePreview env cfg ctx state params true).map (fun r => r.2.length)) =
      some ((⌊params.duration / cfg.sample_time⌋).toNat + 1) ∧
    ∀ k, k ≤ (⌊params.duration / cfg.sample_time⌋).toNat →
      ((stancePreview env cfg ctx state params true).bind (fun r => r.2[k]?)).map
          (fun s => s.time) =
        some (state.time +
          (if k = (⌊params.duration / cfg.sample_time⌋).toNat then params.duration
           else cfg.sample_time * (k + 1))) := by
  have hng : ¬((true : Bool) ∧ params.duration < cfg.sample_time) :=
    fun hh => absurd hh.2 (not_lt.mpr h1)
  constructor
  · unfold stancePreview
    rw [if_neg hng, if_pos rfl]
    simp
  · intro k hk
    unfold stancePreview
    rw [if_neg hng, if_pos rfl]
    simp only [Option.some_bind, List.getElem?_map,
      List.getElem?_range (by omega : k < (⌊params.duration / cfg.sample_time⌋).toNat + 1)]
    simp [stanceSampleF_time]

/-- C1 witness: in the scenario of one STANCE phase of duration one half with
sample time one tenth, the phase trajectory has exactly six samples and the
final one is at time one half. -/
theorem C1_witness :
    cfgW.sample_time ≤ pStance05.duration ∧
    ((stancePreview envW cfgW ctxW stateW pStance05 true).map (fun r => r.2.length)) =
      some 6 ∧
    ((stancePreview envW cfgW ctxW stateW pStance05 true).bind (fun r => r.2[5]?)).map
        (fun s => s.time) = some (1 / 2) := by
  have h1 : cfgW.sample_time ≤ pStance05.duration := by with_unfolding_all decide
  have hmain := C1_stance_sampling envW cfgW ctxW stateW pStance05 h1
  refine ⟨h1, ?_, ?_⟩
  · rw [hmain.1]
    with_unfolding_all decide
  · have h5 := hmain.2 5 (by with_unfolding_all decide)
    rw [h5]
    with_unfolding_all decide

/-- C4: in full mode a FLIGHT phase with duration at least the sample time
resizes the output trajectory to floor(duration / sample_time) slots but
writes the sample at index floor(duration / sample_time) as well, so the final
write is out of bounds and the preview has no defined result; this contradicts
the claim that flight phases follow the stance sampling policy with every
write in bounds. -/
theorem C4_flight_oob (env : Env) (cfg : PLConfig) (ctx : MutCtx)
    (state : ReducedBodyState) (params : PreviewParams)
    (h1 : cfg.sample_time ≤ params.duration) :
    flightPreview env cfg ctx state params true = none := by
  have hng : ¬((true : Bool) ∧ params.duration < cfg.sample_time) :=
    fun hh => absurd hh.2 (not_lt.mpr h1)
  unfold flightPreview
  rw [if_neg hng, if_pos rfl]
  have hw : writeAll
      (List.replicate (⌊params.duration / cfg.sample_time⌋).toNat dfltState)
      ((List.range ((⌊params.duration / cfg.sample_time⌋).toNat + 1)).map
        (fun k => (k, flightSampleF env cfg
          (initSwing env cfg ctx state params) state params
          (⌊params.duration / cfg.sample_time⌋).toNat k))) = none := by
    rcases hcase : writeAll _ _ with _ | l2
    · rfl
    · exfalso
      have hmem : ((⌊params.duration / cfg.sample_time⌋).toNat,
          flightSampleF env cfg (initSwing env cfg ctx state params) state params
            (⌊params.duration / cfg.sample_time⌋).toNat
            (⌊params.duration / cfg.sample_time⌋).toNat) ∈
          (List.range ((⌊params.duration / cfg.sample_time⌋).toNat + 1)).map
            (fun k => (k, flightSampleF env cfg
              (initSwing env cfg ctx state params) state params
              (⌊params.duration / cfg.sample_time⌋).toNat k)) := by
        refine List.mem_map.mpr ?_
        exact ⟨(⌊params.duration / cfg.sample_time⌋).toNat,
          List.mem_range.mpr (by omega), rfl⟩
      have hb := writeAll_some_bound _ _ _ hcase _ hmem
      simp at hb
  simp only [hw]

/-- C4 witness: a concrete full-mode FLIGHT phase of duration one half with
sample time one tenth has no defined preview result because of the
out-of-bounds write. -/
theorem C4_witness :
    cfgW.sample_time ≤ pFlight.duration ∧
    flightPreview envW cfgW ctxW stateW pFlight true = none := by
  have h1 : cfgW.sample_time ≤ pFlight.duration := by with_unfolding_all decide
  exact ⟨h1, C4_flight_oob envW cfgW ctxW stateW pFlight h1⟩

/-- C5 counterexample: a STANCE phase whose duration equals the sample time
does not exceed it, yet in full mode it produces two samples, not zero; the
guard in the code is strict. -/
theorem C5_counterexample :
    pEq.duration ≤ cfgW.sample_time ∧
    ((stancePreview envW cfgW ctxW stateW pEq true).map (fun r => r.2.length)) =
      some 2 := by
  exact ⟨by with_unfolding_all decide, by with_unfolding_all decide⟩

/-- C5 amended: in full mode a phase, STANCE or FLIGHT, produces zero samples
exactly when its duration is strictly below the sample time; a phase whose
duration equals the sample time is sampled. -/
theorem C5_amended (env : Env) (cfg : PLConfig) (ctx : MutCtx)
    (state : ReducedBodyState) (params : PreviewParams)
    (h : params.duration < cfg.sample_time) :
    stancePreview env cfg ctx state params true = some (ctx, []) ∧
    flightPreview env cfg ctx state params true = some (ctx, []) := by
  constructor
  · unfold stancePreview
    rw [if_pos ⟨rfl, h⟩]
  · unfold flightPreview
    rw [if_pos ⟨rfl, h⟩]

/-- C5 witness: the degenerate phase of duration one twentieth produces zero
samples in full mode in both dispatches. -/
theorem C5_witness :
    pShort.duration < cfgW.sample_time ∧
    stancePreview envW cfgW ctxW stateW pShort true = some (ctxW, []) ∧
    flightPreview envW cfgW ctxW stateW pShort true = some (ctxW, []) := by
  have h : pShort.duration < cfgW.sample_time := by with_unfolding_all decide
  exact ⟨h, (C5_amended envW cfgW ctxW stateW pShort h).1,
    (C5_amended envW cfgW ctxW stateW pShort h).2⟩

/-- C6: multiPhaseEnergy accumulates the cart-table energy over exactly the
STANCE phases and advances the running state by one computeResponse call per
phase: a single STANCE phase yields its analytic energy, two STANCE phases
yield the sum with the second energy taken at the state advanced by
computeResponse, and any sequence of FLIGHT phases yields zero energy. -/
theorem C6_energy (env : Env) (cfg : PLConfig) (ctx : MutCtx) (e0 : Vec3)
    (state : ReducedBodyState) (hr : cfg.robot_model = true) :
    (∀ p : PreviewParams, multiPhaseEnergy env cfg ctx e0 state ⟨[p]⟩ =
       if p.phase.type = TypeOfPhase.STANCE
       then env.energy state ⟨p.duration, p.cop_shift⟩ else 0)
    ∧ (∀ p q : PreviewParams, p.phase.type = TypeOfPhase.STANCE →
        q.phase.type = TypeOfPhase.STANCE →
        multiPhaseEnergy env cfg ctx e0 state ⟨[p, q]⟩ =
          env.energy state ⟨p.duration, p.cop_shift⟩ +
            env.energy (computeResponse env ctx.cache state (state.time + p.duration))
              ⟨q.duration, q.cop_shift⟩)
    ∧ (∀ ps : List PreviewParams, (∀ r ∈ ps, r.phase.type = TypeOfPhase.FLIGHT) →
        multiPhaseEnergy env cfg ctx e0 state ⟨ps⟩ = 0) := by
  have hcond : ¬(cfg.robot_model = false) := by rw [hr]; simp
  refine ⟨?_, ?_, ?_⟩
  · intro p
    unfold multiPhaseEnergy
    rw [if_neg hcond]
    simp only [List.foldl_cons, List.foldl_nil, energyStep]
    by_cases hp : p.phase.type = TypeOfPhase.STANCE
    · rw [if_pos hp, if_pos hp, vec3_zero_add]
    · rw [if_neg hp, if_neg hp]
  · intro p q hp hq
    unfold multiPhaseEnergy
    rw [if_neg hcond]
    simp only [List.foldl_cons, List.foldl_nil, energyStep, hp, hq]
    simp [vec3_zero_add]
  · intro ps hall
    unfold multiPhaseEnergy
    rw [if_neg hcond]
    exact energy_foldl_allflight env ctx.cache ps state 0 hall

/-- C6 witness: over the single concrete STANCE phase the energy equals the
analytic phase energy, and over the single concrete FLIGHT phase it is
zero. -/
theorem C6_witness :
    cfgW.robot_model = true ∧
    multiPhaseEnergy envW cfgW ctxW 0 stateW ⟨[pStance05]⟩ =
      envW.energy stateW ⟨pStance05.duration, pStance05.cop_shift⟩ ∧
    multiPhaseEnergy envW cfgW ctxW 0 stateW ⟨[pFlight]⟩ = 0 := by
  refine ⟨rfl, ?_, ?_⟩
  · have h := (C6_energy envW cfgW ctxW 0 stateW rfl).1 pStance05
    rw [h]
    with_unfolding_all decide
  · exact (C6_energy envW cfgW ctxW 0 stateW rfl).2.2 [pFlight]
      (by intro r hrr; rw [List.mem_singleton.mp hrr]; rfl)

theorem readPhase_duration_none (yaml : Yaml) (cfg : PLConfig) (k : Nat)
    (p0 : PreviewParams) (h : yaml.readScalar (phaseNs k) "duration" = none) :
    readPhase yaml cfg k p0 = (p0, some (msgDuration k)) := by
  unfold readPhase
  rw [h]

theorem readPhase_head_acc_none (yaml : Yaml) (cfg : PLConfig) (k : Nat)
    (p0 : PreviewParams) (d : ℚ) (cs : Vec3)
    (hd : yaml.readScalar (phaseNs k) "duration" = some d)
    (hcs : yaml.readV3 (phaseNs k) "cop_shift" = some cs)
    (hha : yaml.readScalar (phaseNs k) "head_acc" = none) :
    readPhase yaml cfg k p0 =
      ({ p0 with duration := d, cop_shift := cs, phase := { p0.phase with type := TypeOfPhase.STANCE } },
       some (msgHeadAcc k)) := by
  simp only [readPhase, hd, hcs, hha]
  simp

theorem readPhasesLoop_abort_at (yaml : Yaml) (cfg : PLConfig) :
    ∀ (ps1 : List PreviewParams) (k : Nat) (p : PreviewParams)
      (rest : List PreviewParams) (p2 : PreviewParams) (e : String),
      (∀ i (hi : i < ps1.length),
        (readPhase yaml cfg (k + i) (ps1.get ⟨i, hi⟩)).2 = none) →
      readPhase yaml cfg (k + ps1.length) p = (p2, some e) →
      readPhasesLoop yaml cfg k (ps1 ++ p :: rest) =
        (List.mapIdx (fun i q => (readPhase yaml cfg (k + i) q).1) ps1 ++
          p2 :: rest, some e) := by
  intro ps1
  induction ps1 with
  | nil =>
    intro k p rest p2 e _ habort
    simp only [List.length_nil, Nat.add_zero] at habort
    simp only [List.nil_append, readPhasesLoop, habort]
    simp
  | cons a tl ih =>
    intro k p rest p2 e hpre habort
    have h0 : (readPhase yaml cfg k a).2 = none := by
      have := hpre 0 (by simp)
      simpa using this
    rcases hra : readPhase yaml cfg k a with ⟨a2, e2⟩
    rw [hra] at h0
    simp only at h0
    subst h0
    simp only [List.cons_append, readPhasesLoop, hra]
    simp only [List.append_eq]
    have hpre2 : ∀ i (hi : i < tl.length),
        (readPhase yaml cfg ((k + 1) + i) (tl.get ⟨i, hi⟩)).2 = none := by
      intro i hi
      have harr : (k + 1) + i = k + (i + 1) := by omega
      rw [harr]
      have := hpre (i + 1) (by simpa using Nat.succ_lt_succ hi)
      simpa using this
    have habort2 : readPhase yaml cfg ((k + 1) + tl.length) p = (p2, some e) := by
      have harr : (k + 1) + tl.length = k + (a :: tl).length := by simp; omega
      rw [harr]
      exact habort
    rw [ih (k + 1) p rest p2 e hpre2 habort2]
    have hfa : (readPhase yaml cfg (k + 0) a).1 = a2 := by
      simpa using congrArg Prod.fst hra
    have hfun : (fun i (q : PreviewParams) =>
          (readPhase yaml cfg (k + (i + 1)) q).1) =
        (fun i (q : PreviewParams) => (readPhase yaml cfg ((k + 1) + i) q).1) := by
      funext i q
      have harr : k + (i + 1) = (k + 1) + i := by omega
      rw [harr]
    simp only [List.mapIdx_cons, hfa, List.cons_append]
    rw [hfun]

/-- C7 counterexample: with the cop key absent the read aborts and logs, yet
the caller-visible outputs, the state and control arguments, are exactly the
outputs of a successful read of a complete store, so no failure indicator
reaches the caller; the function returns void. -/
theorem C7_counterexample :
    yamlA.readV3 stateNs "cop" = none ∧
    (readPreviewSequence yamlA cfgW stateY ctrlEmpty).2.2 = [msgCop] ∧
    (readPreviewSequence yamlB cfgW stateY ctrlEmpty).2.2 = [] ∧
    (readPreviewSequence yamlA cfgW stateY ctrlEmpty).1 =
      (readPreviewSequence yamlB cfgW stateY ctrlEmpty).1 ∧
    (readPreviewSequence yamlA cfgW stateY ctrlEmpty).2.1 =
      (readPreviewSequence yamlB cfgW stateY ctrlEmpty).2.1 := by
  exact ⟨by decide, by decide, by decide, by decide, by decide⟩

/-- C7 amended: whenever a required key is absent the read aborts, the
previously parsed fields are left intact and an error text is logged, but no
programmatic failure indicator is returned to the caller. Covered for every
required key: the four state-level keys com_pos, com_vel, cop and
number_phase; and the per-phase keys through the phase loop, where an abort at
any phase index keeps the phases already read, keeps the partially read
current phase, and leaves the remaining phases untouched: a missing duration
aborts with the phase untouched, and a missing head_acc of a stance phase
aborts with the duration and cop_shift already written. -/
theorem C7_amended (yaml : Yaml) (cfg : PLConfig) (s0 : ReducedBodyState)
    (c0 : PreviewControl) (hr : cfg.robot_model = true) :
    (yaml.readV3 stateNs "com_pos" = none →
      readPreviewSequence yaml cfg s0 c0 = (s0, c0, [msgComPos]))
    ∧ (∀ cp, yaml.readV3 stateNs "com_pos" = some cp →
      yaml.readV3 stateNs "com_vel" = none →
      readPreviewSequence yaml cfg s0 c0 =
        ({ s0 with com_pos := cp }, c0, [msgComVel]))
    ∧ (∀ cp cv, yaml.readV3 stateNs "com_pos" = some cp →
      yaml.readV3 stateNs "com_vel" = some cv →
      yaml.readV3 stateNs "cop" = none →
      readPreviewSequence yaml cfg s0 c0 =
        ({ s0 with com_pos := cp, com_vel := cv }, c0, [msgCop]))
    ∧ (∀ cp cv cq, yaml.readV3 stateNs "com_pos" = some cp →
      yaml.readV3 stateNs "com_vel" = some cv →
      yaml.readV3 stateNs "cop" = some cq →
      yaml.readInt controlNs "number_phase" = none →
      readPreviewSequence yaml cfg s0 c0 =
        ({ s0 with com_pos := cp, com_vel := cv, cop := cq }, c0, [msgNumPhase]))
    ∧ (∀ cp cv cq (np : Int) (ps1 : List PreviewParams) (p : PreviewParams)
        (rest : List PreviewParams) (p2 : PreviewParams) (e : String),
      yaml.readV3 stateNs "com_pos" = some cp →
      yaml.readV3 stateNs "com_vel" = some cv →
      yaml.readV3 stateNs "cop" = some cq →
      yaml.readInt controlNs "number_phase" = some np →
      listResize c0.params np.toNat dfltParams = ps1 ++ p :: rest →
      (∀ i (hi : i < ps1.length),
        (readPhase yaml cfg i (ps1.get ⟨i, hi⟩)).2 = none) →
      readPhase yaml cfg ps1.length p = (p2, some e) →
      readPreviewSequence yaml cfg s0 c0 =
        ({ s0 with com_pos := cp, com_vel := cv, cop := cq },
         { c0 with params :=
             List.mapIdx (fun i q => (readPhase yaml cfg i q).1) ps1 ++
               p2 :: rest },
         [e]))
    ∧ (∀ (k : Nat) (p0 : PreviewParams),
      yaml.readScalar (phaseNs k) "duration" = none →
      readPhase yaml cfg k p0 = (p0, some (msgDuration k)))
    ∧ (∀ (k : Nat) (p0 : PreviewParams) (d : ℚ) (cs : Vec3),
      yaml.readScalar (phaseNs k) "duration" = some d →
      yaml.readV3 (phaseNs k) "cop_shift" = some cs →
      yaml.readScalar (phaseNs k) "head_acc" = none →
      readPhase yaml cfg k p0 =
        ({ p0 with duration := d, cop_shift := cs, phase := { p0.phase with type := TypeOfPhase.STANCE } },
         some (msgHeadAcc k))) := by
  have hcond : ¬(cfg.robot_model = false) := by rw [hr]; simp
  refine ⟨?_, ?_, ?_, ?_, ?_, ?_, ?_⟩
  · intro h1
    unfold readPreviewSequence
    rw [if_neg hcond]
    simp only [h1]
  · intro cp h1 h2
    unfold readPreviewSequence
    rw [if_neg hcond]
    simp only [h1, h2]
  · intro cp cv h1 h2 h3
    unfold readPreviewSequence
    rw [if_neg hcond]
    simp only [h1, h2, h3]
  · intro cp cv cq h1 h2 h3 h4
    unfold readPreviewSequence
    rw [if_neg hcond]
    simp only [h1, h2, h3, h4]
  · intro cp cv cq np ps1 p rest p2 e h1 h2 h3 h4 hsplit hpre habort
    unfold readPreviewSequence
    rw [if_neg hcond]
    simp only [h1, h2, h3, h4]
    rw [hsplit]
    rw [readPhasesLoop_abort_at yaml cfg ps1 0 p rest p2 e
      (fun i hi => by simpa using hpre i hi) (by simpa using habort)]
    simp [Nat.zero_add]
  · intro k p0 h
    exact readPhase_duration_none yaml cfg k p0 h
  · intro k p0 d cs hd hcs hha
    exact readPhase_head_acc_none yaml cfg k p0 d cs hd hcs hha

/-- C7 witness: the store lacking the duration of phase one aborts the phase
loop there, keeping phase zero as read and phase one untouched, with only a
log; and the store whose stance phase zero lacks head_acc aborts with the
duration and cop_shift of that phase already written. -/
theorem C7_witness :
    cfgW.robot_model = true ∧
    yamlC.readScalar (phaseNs 1) "duration" = none ∧
    yamlD.readScalar (phaseNs 0) "head_acc" = none ∧
    readPreviewSequence yamlC cfgW stateY ctrlEmpty =
      ({ stateY with com_pos := ⟨1, 2, 3⟩, com_vel := ⟨4, 5, 6⟩, cop := ⟨7, 8, 9⟩ },
       { ctrlEmpty with params := List.mapIdx (fun i q => (readPhase yamlC cfgW i q).1) [dfltParams] ++ dfltParams :: [] },
       [msgDuration 1]) ∧
    readPhase yamlD cfgW 0 dfltParams =
      ({ dfltParams with duration := 1, cop_shift := ⟨0, 0, 0⟩, phase := { dfltParams.phase with type := TypeOfPhase.STANCE } },
       some (msgHeadAcc 0)) := by
  refine ⟨rfl, by decide, by decide, ?_, ?_⟩
  · refine (C7_amended yamlC cfgW stateY ctrlEmpty rfl).2.2.2.2.1
      ⟨1, 2, 3⟩ ⟨4, 5, 6⟩ ⟨7, 8, 9⟩ 2 [dfltParams] dfltParams [] dfltParams
      (msgDuration 1) (by decide) (by decide) (by decide) (by decide)
      (by with_unfolding_all decide) ?_ ?_
    · intro i hi
      have hi1 : i < 1 := by simpa using hi
      have h0 : i = 0 := by omega
      subst h0
      have hg : [dfltParams].get ⟨0, hi⟩ = dfltParams := rfl
      rw [hg]
      with_unfolding_all decide
    · with_unfolding_all decide
  · exact (C7_amended yamlD cfgW stateY ctrlEmpty rfl).2.2.2.2.2.2 0 dfltParams
      1 ⟨0, 0, 0⟩ (by decide) (by decide) (by decide)

/-- C8: when the robot model is not loaded, multiPhasePreview,
multiPhaseEnergy and readPreviewSequence check the flag before any other work
and return with their output arguments unchanged; the read additionally logs
the uninitialised-model text. -/
theorem C8_guard (env : Env) (cfg : PLConfig) (ctx : MutCtx)
    (traj0 : List ReducedBodyState) (state : ReducedBodyState)
    (control : PreviewControl) (full : Bool) (e0 : Vec3) (yaml : Yaml)
    (s0 : ReducedBodyState) (c0 : PreviewControl)
    (hr : cfg.robot_model = false) :
    multiPhasePreview env cfg ctx traj0 state control full = some traj0 ∧
    multiPhaseEnergy env cfg ctx e0 state control = e0 ∧
    readPreviewSequence yaml cfg s0 c0 = (s0, c0, [msgUninit]) := by
  refine ⟨?_, ?_, ?_⟩
  · unfold multiPhasePreview
    rw [if_pos hr]
  · unfold multiPhaseEnergy
    rw [if_pos hr]
  · unfold readPreviewSequence
    rw [if_pos hr]

/-- C8 witness: on the unloaded concrete configuration all three entry points
return their outputs untouched. -/
theorem C8_witness :
    cfgOff.robot_model = false ∧
    multiPhasePreview envW cfgOff ctxW [stateW] stateW ctrlOne true = some [stateW] ∧
    multiPhaseEnergy envW cfgOff ctxW ⟨1, 2, 3⟩ stateW ctrlOne = ⟨1, 2, 3⟩ ∧
    readPreviewSequence yamlA cfgOff stateY ctrlEmpty =
      (stateY, ctrlEmpty, [msgUninit]) := by
  have h := C8_guard envW cfgOff ctxW [stateW] stateW ctrlOne true ⟨1, 2, 3⟩
    yamlA stateY ctrlEmpty rfl
  exact ⟨rfl, h.1, h.2.1, h.2.2⟩

/-- C2 counterexample: in the two-phase run the first phase lasts one
twentieth, which does not exceed the sample time of one tenth, so by the claim
the support region of the second phase would not be updated and its samples
would keep the foot LF; the code guards the update on the current phase
instead, removes LF, and the first sample of the second phase has no LF in its
support region. -/
theorem C2_counterexample :
    pShort.duration ≤ cfgW.sample_time ∧
    alookup stateW.support_region "LF" = some ⟨0, 1, 0⟩ ∧
    ((multiPhasePreview envW cfgW ctxW [] stateW ctrlC2 true).bind
        (fun t => t[1]?)).map (fun s => alookup s.support_region "LF") =
      some none := by
  exact ⟨by with_unfolding_all decide, by with_unfolding_all decide,
    by with_unfolding_all decide⟩

/-- C2 amended: at a phase boundary the support region of the start state is
updated exactly when the duration of the current phase exceeds the sample
time; the update commits the foothold of every configured foot that swung in
the previous phase whose duration also exceeds the sample time, removes every
foot the current phase swings, and leaves the other feet untouched; when the
duration of the current phase does not exceed the sample time the data of the
previous phase has no effect at all on the loop. -/
theorem C2_support_update (env : Env) (cfg : PLConfig)
    (state0 back : ReducedBodyState) (prevP curP : PreviewParams) :
    (cfg.feet_names.Nodup → ∀ name,
      alookup (updatedStartState env cfg state0 prevP curP back).support_region name =
        if name ∈ cfg.feet_names ∧ prevP.phase.isSwingFoot name ∧
            prevP.duration > cfg.sample_time
        then some (commitFoothold env cfg state0 back prevP name)
        else if name ∈ cfg.feet_names ∧ curP.phase.isSwingFoot name then none
        else alookup back.support_region name)
    ∧ (curP.duration ≤ cfg.sample_time →
      ∀ (full : Bool) (rest : List PreviewParams) (prevP2 : PreviewParams)
        (ctx : MutCtx) (traj : List ReducedBodyState),
        phasesLoop env cfg state0 full (curP :: rest) (some prevP) ctx traj =
          phasesLoop env cfg state0 full (curP :: rest) (some prevP2) ctx traj) := by
  constructor
  · intro hnd name
    exact updatedStartState_lookup env cfg state0 back prevP curP hnd name
  · intro hle full rest prevP2 ctx traj
    simp only [phasesLoop, startStateOf]
    cases hb : traj.getLast? with
    | none => rfl
    | some b =>
      simp only [if_neg (not_lt.mpr hle)]

/-- C2 amended witness: at a concrete boundary the committed foothold of LF is
the one given by the commit formula, and a concrete degenerate current phase
makes the previous-phase data irrelevant. -/
theorem C2_support_update_witness :
    cfgW.feet_names.Nodup ∧
    alookup (updatedStartState envW cfgW stateW pSwing pStance05
        stateW).support_region "LF" =
      some (commitFoothold envW cfgW stateW stateW pSwing "LF") ∧
    pShort.duration ≤ cfgW.sample_time ∧
    phasesLoop envW cfgW stateW true [pShort] (some pSwing) ctxW [stateW] =
      phasesLoop envW cfgW stateW true [pShort] (some pStance05) ctxW [stateW] := by
  have hnd : cfgW.feet_names.Nodup := by decide
  refine ⟨hnd, ?_, by with_unfolding_all decide, ?_⟩
  · have h := (C2_support_update envW cfgW stateW stateW pSwing pStance05).1 hnd "LF"
    rw [h]
    rw [if_pos ⟨by decide, by decide, by with_unfolding_all decide⟩]
  · exact (C2_support_update envW cfgW stateW stateW pSwing pShort).2
      (by with_unfolding_all decide) true [] pStance05 ctxW [stateW]

/-- C3: with a loaded model, whenever multiPhasePreview returns a trajectory
it is the loop trajectory extended by exactly one trailing state, obtained
from the last loop state by committing the foothold of every configured foot
that the last phase swings, provided that phase lasts longer than the sample
time; the returned trajectory hence ends with the final footsteps
committed. -/
theorem C3_trailing_commit (env : Env) (cfg : PLConfig) (ctx : MutCtx)
    (traj0 : List ReducedBodyState) (state : ReducedBodyState)
    (control : PreviewControl) (full : Bool)
    (hr : cfg.robot_model = true) (hnd : cfg.feet_names.Nodup) :
    ∀ t, multiPhasePreview env cfg ctx traj0 state control full = some t →
      ∃ r last endc,
        phasesLoop env cfg state full control.params none
          { ctx with actualState := state } [] = some r ∧
        r.2.getLast? = some last ∧
        control.params.getLast? = some endc ∧
        t = r.2 ++ [trailingUpdate env cfg state last endc] ∧
        (∀ name ∈ cfg.feet_names, endc.phase.isSwingFoot name →
          endc.duration > cfg.sample_time →
          alookup (trailingUpdate env cfg state last endc).support_region name =
            some (commitFoothold env cfg state last endc name)) := by
  intro t ht
  have hcond : ¬(cfg.robot_model = false) := by rw [hr]; simp
  unfold multiPhasePreview at ht
  rw [if_neg hcond] at ht
  rcases hl : phasesLoop env cfg state full control.params none
      { ctx with actualState := state } [] with _ | r
  · rw [hl] at ht; simp at ht
  · rw [hl] at ht
    simp only [Option.some_bind] at ht
    rcases hlast : r.2.getLast? with _ | last
    · rw [hlast] at ht; simp at ht
    · rw [hlast] at ht
      simp only [Option.some_bind] at ht
      rcases hendc : control.params.getLast? with _ | endc
      · rw [hendc] at ht; simp at ht
      · rw [hendc] at ht
        simp only [Option.some_bind, Option.some.injEq] at ht
        refine ⟨r, last, endc, rfl, hlast, rfl, ht.symm, ?_⟩
        intro name hmem hsw hdur
        rw [trailingUpdate_lookup env cfg state last endc hnd name,
          if_pos ⟨hmem, hsw, hdur⟩]

/-- C3 witness: the concrete one-phase control that swings LF returns a
trajectory whose final state carries a foothold for LF in its support
region. -/
theorem C3_witness :
    cfgW.robot_model = true ∧ cfgW.feet_names.Nodup ∧
    ((multiPhasePreview envW cfgW ctxW [] stateW ctrlSwing true).bind
        (fun t => t.getLast?)).map
      (fun s => (alookup s.support_region "LF").isSome) = some true := by
  refine ⟨rfl, by decide, ?_⟩
  rcases hmp : multiPhasePreview envW cfgW ctxW [] stateW ctrlSwing true with _ | t
  · exact absurd hmp (by with_unfolding_all decide)
  · obtain ⟨r, last, endc, hl, hlast, hendc, hteq, hcommit⟩ :=
      C3_trailing_commit envW cfgW ctxW [] stateW ctrlSwing true rfl (by decide) t hmp
    have h0 : ctrlSwing.params.getLast? = some pSwing := by with_unfolding_all decide
    rw [h0] at hendc
    cases hendc
    have hc := hcommit "LF" (by decide) (by decide) (by with_unfolding_all decide)
    simp only [Option.some_bind]
    rw [hteq, List.getLast?_concat]
    simp [hc]

/-- C9: multiPhasePreview is deterministic in its explicit inputs together
with the cart-table cache: two engine instances whose per-call mutable
context differs arbitrarily in the entry actual state, the cached phase
state, the cached swing pattern and the spline generators, but agree on the
cart-table cache, return the same output trajectory for the same inputs; in
particular two fresh instances do. -/
theorem C9_determinism (env : Env) (cfg : PLConfig)
    (traj0 : List ReducedBodyState) (state : ReducedBodyState)
    (control : PreviewControl) (full : Bool)
    (a1 a2 ps1 ps2 : ReducedBodyState) (sw1 sw2 : SwingParams)
    (g1 g2 : List (String × (ℚ × Vec3 × Vec3 × ℚ × ℚ)))
    (cache : Option (ReducedBodyState × CartTableControlParams)) :
    multiPhasePreview env cfg ⟨a1, ps1, sw1, g1, cache⟩ traj0 state control full =
      multiPhasePreview env cfg ⟨a2, ps2, sw2, g2, cache⟩ traj0 state control full := by
  unfold multiPhasePreview
  by_cases hr : cfg.robot_model = false
  · rw [if_pos hr, if_pos hr]
  · rw [if_neg hr, if_neg hr]
    have hupd1 : ({ (⟨a1, ps1, sw1, g1, cache⟩ : MutCtx) with actualState := state }) =
        (⟨state, ps1, sw1, g1, cache⟩ : MutCtx) := rfl
    have hupd2 : ({ (⟨a2, ps2, sw2, g2, cache⟩ : MutCtx) with actualState := state }) =
        (⟨state, ps2, sw2, g2, cache⟩ : MutCtx) := rfl
    rw [hupd1, hupd2]
    have hrel : CtxRel ⟨state, ps1, sw1, g1, cache⟩ ⟨state, ps2, sw2, g2, cache⟩ :=
      ⟨rfl, rfl⟩
    have hor := phasesLoop_orel env cfg state full control.params none [] hrel
    rcases h1 : phasesLoop env cfg state full control.params none
        ⟨state, ps1, sw1, g1, cache⟩ [] with _ | r1
    · rcases h2 : phasesLoop env cfg state full control.params none
          ⟨state, ps2, sw2, g2, cache⟩ [] with _ | r2
      · rfl
      · rw [h1, h2] at hor
        exact False.elim hor
    · rcases h2 : phasesLoop env cfg state full control.params none
          ⟨state, ps2, sw2, g2, cache⟩ [] with _ | r2
      · rw [h1, h2] at hor
        exact False.elim hor
      · rw [h1, h2] at hor
        obtain ⟨hctx, htr⟩ := hor
        simp only [Option.some_bind]
        rw [htr]

/-- C10: with a loaded model and a non-empty control the loop trajectory is
never empty thanks to the sanity action, so the trailing accesses to the last
trajectory state and the last control phase are in bounds and the preview
returns a trajectory; with an empty control both trailing accesses are out of
bounds and the preview has no defined result. -/
theorem C10_bounds (env : Env) (cfg : PLConfig) (ctx : MutCtx)
    (traj0 : List ReducedBodyState) (state : ReducedBodyState)
    (control : PreviewControl) (full : Bool) (hr : cfg.robot_model = true) :
    (control.params = [] →
      multiPhasePreview env cfg ctx traj0 state control full = none)
    ∧ (control.params ≠ [] → ∀ r, phasesLoop env cfg state full control.params none
        { ctx with actualState := state } [] = some r →
        r.2 ≠ [] ∧
        (multiPhasePreview env cfg ctx traj0 state control full).isSome = true) := by
  have hcond : ¬(cfg.robot_model = false) := by rw [hr]; simp
  constructor
  · intro hps
    unfold multiPhasePreview
    rw [if_neg hcond, hps]
    simp [phasesLoop]
  · intro hne r hl
    have hnil : r.2 ≠ [] := phasesLoop_traj_ne_nil env cfg state full
      control.params none _ [] r (Or.inl hne) hl
    refine ⟨hnil, ?_⟩
    unfold multiPhasePreview
    rw [if_neg hcond, hl]
    simp only [Option.some_bind]
    rw [List.getLast?_eq_getLast_of_ne_nil hnil]
    simp only [Option.some_bind]
    rw [List.getLast?_eq_getLast_of_ne_nil hne]
    simp only [Option.some_bind]
    rfl

/-- C10 witness: the concrete one-phase control yields a defined trajectory
and the empty control yields none. -/
theorem C10_witness :
    cfgW.robot_model = true ∧ ctrlOne.params ≠ [] ∧
    (multiPhasePreview envW cfgW ctxW [] stateW ctrlOne true).isSome = true ∧
    multiPhasePreview envW cfgW ctxW [] stateW ctrlEmpty true = none := by
  have hmain := C10_bounds envW cfgW ctxW [] stateW ctrlOne true rfl
  have hne : ctrlOne.params ≠ [] := by decide
  refine ⟨rfl, hne, ?_, ?_⟩
  · rcases hl : phasesLoop envW cfgW stateW true ctrlOne.params none
        { ctxW with actualState := stateW } [] with _ | r
    · exact absurd hl (by with_unfolding_all decide)
    · exact (hmain.2 hne r hl).2
  · exact (C10_bounds envW cfgW ctxW [] stateW ctrlEmpty true rfl).1 rfl

end dwl
